import Mathlib

/-!
Verification of the Goose-Kixie dialer/CRM synchronization service.

Shallow embedding of the Python source under `src/`:
* `app/services/realnex_api.py` — phone normalization, the endpoint prober
  `_try_paths`, and the tiered phone-matching pipeline;
* `app/routes/kixie.py` — the inbound webhook handler with its idempotency
  guard (SHA-256 fingerprint over `tenant_id|callid|event`) and the legacy
  history-write fallback loop;
* `app/routes/dialer.py` — webhook signature verification and the
  `contacts_search` route;
* `app/routes/dailer.py` — the lease-based outbound call queue
  (`next_contact`).

Remote HTTP responses are modelled as JSON values supplied as oracle
arguments; database tables are modelled as lists of rows; `datetime`
timestamps are integers.  SHA-256 and HMAC-SHA256 (Python `hashlib` /
`hmac`) are implemented in full over byte lists (`Nat` mod 2^32 words).
-/

namespace GooseKixie

/-! ### Phone utilities (`app/services/realnex_api.py`, lines 78-96)

Python `re.sub(r"\D+", "", raw)` removes every non-digit character.  The
payloads handled by this service are ASCII phone strings, so `Char.isDigit`
(ASCII `0`-`9`) models Python's `\d`. -/

/-- The digit characters of a character list, in order: `re.sub(r"\D+", "", s)`. -/
def pyDigitsL (l : List Char) : List Char := l.filter Char.isDigit

/-- `normalize_phone_e164ish` on the character list of the raw string.
Mirrors the branch structure of the Python function: empty input and
digit-free input give `None`; 10 digits get a `+1` country prefix; 11 digits
led by `1` keep a `+` prefix; otherwise a `+` is prepended to the digits
(the final two Python branches return the same value and are merged by
`if`-fallthrough exactly as in the source). -/
def normalizeL (l : List Char) : Option (List Char) :=
  if l = [] then none
  else if pyDigitsL l = [] then none
  else if (pyDigitsL l).length = 10 then some ('+' :: '1' :: pyDigitsL l)
  else if (pyDigitsL l).head? = some '1' ∧ (pyDigitsL l).length = 11 then some ('+' :: pyDigitsL l)
  else if l.head? = some '+' then some ('+' :: pyDigitsL l)
  else some ('+' :: pyDigitsL l)

/-- `normalize_phone_e164ish(raw)` (realnex_api.py lines 78-90). -/
def normalize_phone_e164ish (raw : Option String) : Option String :=
  match raw with
  | none => none
  | some r => (normalizeL r.data).map (fun l => ⟨l⟩)

/-- `digits_only(raw)` (realnex_api.py lines 92-96): `None` for a falsy
input or when no digit remains, else the digit characters. -/
def digits_only (raw : Option String) : Option String :=
  match raw with
  | none => none
  | some r =>
    if r = "" then none
    else if pyDigitsL r.data = [] then none
    else some ⟨pyDigitsL r.data⟩

/-! ### JSON values

The service passes `dict` payloads and responses around; `JVal` is the
value model.  Numbers are integers (every number the routes inspect —
HTTP statuses, keys — is an int). -/

/-- A JSON-ish Python value. -/
inductive JVal where
  | null
  | bool (b : Bool)
  | num (n : Int)
  | str (s : String)
  | arr (xs : List JVal)
  | obj (kvs : List (String × JVal))
deriving Inhabited

/-- Python truthiness of a value. -/
def truthy : JVal → Bool
  | .null => false
  | .bool b => b
  | .num n => n != 0
  | .str s => !s.isEmpty
  | .arr xs => !xs.isEmpty
  | .obj kvs => !kvs.isEmpty

/-- `d.get(k)` on a dict value; `none` when the key is absent.  The routes
only call `.get` on dicts, so non-objects yield `none`. -/
def jget (v : JVal) (k : String) : Option JVal :=
  match v with
  | .obj kvs => (kvs.find? (fun kv => kv.1 == k)).map (fun kv => kv.2)
  | _ => none

/-- `d.get(k, dflt)`. -/
def jgetD (v : JVal) (k : String) (dflt : JVal) : JVal := (jget v k).getD dflt

/-- Python `a or b` over optional lookups: the first operand when truthy,
otherwise the second. -/
def pyOr (a b : Option JVal) : Option JVal :=
  match a with
  | some v => if truthy v then some v else b
  | none => b

/-- Python `a or b` with a non-optional fallback. -/
def pyOrV (a : Option JVal) (b : JVal) : JVal :=
  match a with
  | some v => if truthy v then v else b
  | none => b

/-- Python `str(x)` for the scalar values the routes stringify (extracted
contact keys are strings or ints).  Container reprs are abbreviated; no
verified property depends on them. -/
def pyStr : JVal → String
  | .null => "None"
  | .bool b => if b then "True" else "False"
  | .num n => toString n
  | .str s => s
  | .arr _ => "[...]"
  | .obj _ => "..."

/-- Python `int(resp.get("status", 0))`; non-numeric statuses do not occur
in the formatted responses (`_format_resp` always stores an int). -/
def statusOf (v : JVal) : Int :=
  match jget v "status" with
  | some (.num n) => n
  | _ => 0

/-- `resp.get("status", dflt)` compared as an integer (used by the history
fallback loop, default 500). -/
def statusD (v : JVal) (dflt : Int) : Int :=
  match jget v "status" with
  | some (.num n) => n
  | _ => dflt

/-- `int(x) // 100 == 2`: Python floor division. -/
def is2xx (n : Int) : Bool := Int.fdiv n 100 == 2

/-! ### Endpoint prober `_try_paths` (realnex_api.py lines 61-74)

The outbound transport is an oracle `send : url → SendOutcome`.  The
prober iterates bases in the outer loop and paths in the inner loop,
returns the first response whose status is not 404, remembers the last 404
response, and aborts with a 599-shaped error on the first `httpx.HTTPError`. -/

/-- Outcome of one HTTP attempt: a response with a status code, or a
transport-level `httpx.HTTPError`. -/
inductive SendOutcome where
  | resp (status : Nat)
  | err (msg : String)
deriving DecidableEq

/-- Result of `_try_paths`:
* `found url status` — the formatted first non-404 response;
* `notFound lastUrl` — every attempt returned 404 (`some u`: the formatted
  last 404 response; `none`: the literal `{status 404, error Not Found}`
  dict when there was no attempt at all);
* `transport url msg` — the `{status 599, error, attempted url}` dict. -/
inductive ProbeOut where
  | found (url : String) (status : Nat)
  | notFound (lastUrl : Option String)
  | transport (url : String) (msg : String)
deriving DecidableEq

/-- `base.rstrip("/")`. -/
def rstripSlash (s : String) : String := ⟨(s.data.reverse.dropWhile (fun c => c = '/')).reverse⟩

/-- `path.lstrip("/")`. -/
def lstripSlash (s : String) : String := ⟨s.data.dropWhile (fun c => c = '/')⟩

/-- The URL built for one `(base, path)` pair. -/
def mkUrl (base path : String) : String := rstripSlash base ++ "/" ++ lstripSlash path

/-- The inner `for path in paths` loop for one base: aborts early with a
final result, or hands the updated `last` 404 URL back to the outer loop. -/
def tryPathsInner (send : String → SendOutcome) (base : String) :
    List String → Option String → ProbeOut ⊕ Option String
  | [], last => Sum.inr last
  | p :: ps, last =>
    let url := mkUrl base p
    match send url with
    | .err m => Sum.inl (.transport url m)
    | .resp s => if s ≠ 404 then Sum.inl (.found url s) else tryPathsInner send base ps (some url)

/-- The outer `for base in BASES` loop, threading the `last` 404 response. -/
def tryPathsOuter (send : String → SendOutcome) :
    List String → List String → Option String → ProbeOut
  | [], _, last => .notFound last
  | b :: bs, paths, last =>
    match tryPathsInner send b paths last with
    | Sum.inl out => out
    | Sum.inr last2 => tryPathsOuter send bs paths last2

/-- `_try_paths(method, paths, token)` for a fixed method/token, with the
transport as an oracle. -/
def try_paths (bases paths : List String) (send : String → SendOutcome) : ProbeOut :=
  tryPathsOuter send bases paths none

/-- The flat attempt order: bases outer, paths inner. -/
def urlsOf (bases paths : List String) : List String :=
  bases.flatMap (fun b => paths.map (fun p => mkUrl b p))

/-- Reference scan over the flat URL list (used to characterize
`try_paths`; proven equal to it). -/
def probeGo (send : String → SendOutcome) : List String → Option String → ProbeOut
  | [], last => .notFound last
  | u :: us, last =>
    match send u with
    | .err m => .transport u m
    | .resp s => if s ≠ 404 then .found u s else probeGo send us (some u)

/-! ### SHA-256 and HMAC-SHA256 (`hashlib.sha256`, `hmac.new(..., hashlib.sha256)`)

Full FIPS 180-4 implementation over byte lists; 32-bit words are `Nat`
values reduced mod 2^32. -/

/-- Reduce mod 2^32. -/
def m32 (n : Nat) : Nat := n % 4294967296

/-- Reduce mod 2^64 (for the padded bit-length field). -/
def m64 (n : Nat) : Nat := n % 18446744073709551616

/-- 32-bit right rotation. -/
def rotr32 (r n : Nat) : Nat := (n >>> r) ||| m32 (n <<< (32 - r))

/-- SHA-256 `Ch(e,f,g)`. -/
def shaCh (e f g : Nat) : Nat := (e &&& f) ^^^ ((e ^^^ 4294967295) &&& g)

/-- SHA-256 `Maj(a,b,c)`. -/
def shaMaj (a b c : Nat) : Nat := (a &&& b) ^^^ (a &&& c) ^^^ (b &&& c)

/-- SHA-256 `Σ0`. -/
def bigSigma0 (x : Nat) : Nat := rotr32 2 x ^^^ rotr32 13 x ^^^ rotr32 22 x

/-- SHA-256 `Σ1`. -/
def bigSigma1 (x : Nat) : Nat := rotr32 6 x ^^^ rotr32 11 x ^^^ rotr32 25 x

/-- SHA-256 `σ0`. -/
def smallSigma0 (x : Nat) : Nat := rotr32 7 x ^^^ rotr32 18 x ^^^ (x >>> 3)

/-- SHA-256 `σ1`. -/
def smallSigma1 (x : Nat) : Nat := rotr32 17 x ^^^ rotr32 19 x ^^^ (x >>> 10)

/-- The 64 SHA-256 round constants (fractional parts of the cube roots of
the first 64 primes, FIPS 180-4 §4.2.2). -/
def shaK : Array Nat := #[
  1116352408, 1899447441, 3049323471, 3921009573, 961987163, 1508970993, 2453635748, 2870763221,
  3624381080, 310598401, 607225278, 1426881987, 1925078388, 2162078206, 2614888103, 3248222580,
  3835390401, 4022224774, 264347078, 604807628, 770255983, 1249150122, 1555081692, 1996064986,
  2554220882, 2821834349, 2952996808, 3210313671, 3336571891, 3584528711, 113926993, 338241895,
  666307205, 773529912, 1294757372, 1396182291, 1695183700, 1986661051, 2177026350, 2456956037,
  2730485921, 2820302411, 3259730800, 3345764771, 3516065817, 3600352804, 4094571909, 275423344,
  430227734, 506948616, 659060556, 883997877, 958139571, 1322822218, 1537002063, 1747873779,
  1955562222, 2024104815, 2227730452, 2361852424, 2428436474, 2756734187, 3204031479, 3329325298]

/-- SHA-256 working state: eight 32-bit words. -/
structure Hash8 where
  a : Nat
  b : Nat
  c : Nat
  d : Nat
  e : Nat
  f : Nat
  g : Nat
  h : Nat
deriving DecidableEq

/-- The SHA-256 initial hash value (fractional parts of the square roots of
the first 8 primes). -/
def shaH0 : Hash8 :=
  ⟨1779033703, 3144134277, 1013904242, 2773480762, 1359893119, 2600822924, 528734635, 1541459225⟩

/-- Extend 16 message words to the 64-entry schedule. -/
def shaSchedule (w0 : Array Nat) : Array Nat :=
  (List.range 48).foldl
    (fun w _ =>
      w.push (m32 (smallSigma1 (w.getD (w.size - 2) 0) + w.getD (w.size - 7) 0 +
        smallSigma0 (w.getD (w.size - 15) 0) + w.getD (w.size - 16) 0)))
    w0

/-- One SHA-256 round. -/
def shaRound (w : Array Nat) (s : Hash8) (i : Nat) : Hash8 :=
  let t1 := m32 (s.h + bigSigma1 s.e + shaCh s.e s.f s.g + shaK.getD i 0 + w.getD i 0)
  let t2 := m32 (bigSigma0 s.a + shaMaj s.a s.b s.c)
  ⟨m32 (t1 + t2), s.a, s.b, s.c, m32 (s.d + t1), s.e, s.f, s.g⟩

/-- Compress one 64-byte block (given as 16 words) into the state. -/
def shaCompress (st : Hash8) (words : List Nat) : Hash8 :=
  let w := shaSchedule words.toArray
  let fin := (List.range 64).foldl (shaRound w) st
  ⟨m32 (st.a + fin.a), m32 (st.b + fin.b), m32 (st.c + fin.c), m32 (st.d + fin.d),
   m32 (st.e + fin.e), m32 (st.f + fin.f), m32 (st.g + fin.g), m32 (st.h + fin.h)⟩

/-- Big-endian bytes of `n`, `k` bytes wide. -/
def bytesBE : Nat → Nat → List Nat
  | 0, _ => []
  | k + 1, n => (n >>> (8 * k)) % 256 :: bytesBE k n

/-- SHA-256 padding: `0x80`, zeros to 56 mod 64, then the 64-bit bit length. -/
def shaPad (msg : List Nat) : List Nat :=
  let L := msg.length
  msg ++ 128 :: List.replicate ((119 - L % 64) % 64) 0 ++ bytesBE 8 (m64 (8 * L))

/-- Split a byte list into 64-byte chunks. -/
def chunk64 : List Nat → List (List Nat)
  | [] => []
  | a :: rest => ((a :: rest).take 64) :: chunk64 ((a :: rest).drop 64)
termination_by l => l.length
decreasing_by simp [List.length_drop]; omega

/-- Combine bytes into big-endian 32-bit words. -/
def words32 : List Nat → List Nat
  | b0 :: b1 :: b2 :: b3 :: rest => (b0 <<< 24 ||| b1 <<< 16 ||| b2 <<< 8 ||| b3) :: words32 rest
  | _ => []

/-- The SHA-256 state after absorbing the whole padded message. -/
def sha256Core (msg : List Nat) : Hash8 :=
  (chunk64 (shaPad msg)).foldl (fun st blk => shaCompress st (words32 blk)) shaH0

/-- SHA-256 digest as 32 bytes. -/
def sha256Bytes (msg : List Nat) : List Nat :=
  let d := sha256Core msg
  bytesBE 4 d.a ++ bytesBE 4 d.b ++ bytesBE 4 d.c ++ bytesBE 4 d.d ++
  bytesBE 4 d.e ++ bytesBE 4 d.f ++ bytesBE 4 d.g ++ bytesBE 4 d.h

/-- Lower-case hex digit. -/
def hexNib (n : Nat) : Char := "0123456789abcdef".data.getD n '0'

/-- Eight lower-case hex digits of a 32-bit word. -/
def hexW32 (w : Nat) : String :=
  ⟨[hexNib ((w >>> 28) &&& 15), hexNib ((w >>> 24) &&& 15), hexNib ((w >>> 20) &&& 15),
    hexNib ((w >>> 16) &&& 15), hexNib ((w >>> 12) &&& 15), hexNib ((w >>> 8) &&& 15),
    hexNib ((w >>> 4) &&& 15), hexNib (w &&& 15)]⟩

/-- `hashlib.sha256(msg).hexdigest()`. -/
def sha256Hex (msg : List Nat) : String :=
  let d := sha256Core msg
  hexW32 d.a ++ hexW32 d.b ++ hexW32 d.c ++ hexW32 d.d ++
  hexW32 d.e ++ hexW32 d.f ++ hexW32 d.g ++ hexW32 d.h

/-- UTF-8 encoding of one character (Python `str.encode()`). -/
def utf8Char (c : Char) : List Nat :=
  let n := c.toNat
  if n < 128 then [n]
  else if n < 2048 then [192 ||| (n >>> 6), 128 ||| (n &&& 63)]
  else if n < 65536 then [224 ||| (n >>> 12), 128 ||| ((n >>> 6) &&& 63), 128 ||| (n &&& 63)]
  else [240 ||| (n >>> 18), 128 ||| ((n >>> 12) &&& 63), 128 ||| ((n >>> 6) &&& 63), 128 ||| (n &&& 63)]

/-- UTF-8 bytes of a string (Python `s.encode()`). -/
def utf8Bytes (s : String) : List Nat := s.data.flatMap utf8Char

/-- `hmac.new(key, msg, hashlib.sha256).hexdigest()` (RFC 2104 with a
64-byte block: keys longer than 64 bytes are hashed first, then
zero-padded). -/
def hmacSha256Hex (key msg : List Nat) : String :=
  let key0 := if key.length > 64 then sha256Bytes key else key
  let keyP := key0 ++ List.replicate (64 - key0.length) 0
  let ipad := keyP.map (fun b => b ^^^ 54)
  let opad := keyP.map (fun b => b ^^^ 92)
  sha256Hex (opad ++ sha256Bytes (ipad ++ msg))

/-! ### Idempotency guard and webhook handler (`app/routes/kixie.py`, lines 28-37 and 207-333)

The `Tenant` and `EventLog` rows carry exactly the columns the route reads
(`models/eventlog.py` lines 4-15; the route accesses `kixie_business_id`,
`webhook_secret`, `rn_jwt_enc`, `active`, `id` on the tenant).  The remote
work done inside the route's `try` block — contact lookup/creation and the
history write — is abstracted as a `ProcOutcome` oracle carrying the list
of side effects it performs and whether it raises. -/

/-- The tenant columns read by the webhook routes. -/
structure TenantRow where
  id : Nat
  kixie_business_id : String
  webhook_secret : String
  rn_jwt_enc : String
  active : Bool
deriving DecidableEq

/-- One `event_log` row (`src/models/eventlog.py`; `idem_key` is unique). -/
structure EventLogRow where
  tenant_id : Nat
  event_type : String
  callid : Option String
  idem_key : String
  payload_json : String
  status : String
  error : Option String
deriving DecidableEq

/-- `find_tenant(db, business_id)` (kixie.py lines 28-33): the first active
tenant with the given Kixie business id. -/
def find_tenant (tenants : List TenantRow) (business_id : String) : Option TenantRow :=
  tenants.find? (fun t => t.kixie_business_id == business_id && t.active)

/-- `idem_key(tenant_id, callid, event)` (kixie.py lines 36-37): the SHA-256
hex digest of `f"{tenant_id}|{callid or ''}|{event}"` (UTF-8 encoded). -/
def idem_key (tenant_id : Nat) (callid : Option String) (event : String) : String :=
  sha256Hex (utf8Bytes (toString tenant_id ++ "|" ++ callid.getD "" ++ "|" ++ event))

/-- `body.data.get("callid") or body.data.get("id")`, rendered as the
string interpolated by `idem_key`'s f-string; a falsy callid renders `''`
(the `callid or ''` in the f-string). -/
def idemCallid (data : JVal) : Option String :=
  match pyOr (jget data "callid") (jget data "id") with
  | some v => if truthy v then some (pyStr v) else none
  | none => none

/-- The `callid` column value stored on the logged row. -/
def storedCallid (data : JVal) : Option String :=
  (pyOr (jget data "callid") (jget data "id")).map pyStr

/-- Outcome of the route's `try` block (contact resolution plus history
write, an external interaction): the remote side effects it performed, and
the exception message when it raised. -/
inductive ProcOutcome where
  | success (effects : List String)
  | failure (err : String) (effects : List String)
deriving DecidableEq

/-- The HTTP response shapes of `POST /webhooks` (kixie.py). `dupOk` is the
success-shaped `{ok: true, duplicate: true}` body; `ok` is `{ok: true}`. -/
inductive WebhookResp where
  | notFound404 (detail : String)
  | unauthorized401 (detail : String)
  | dupOk
  | ok
  | serverError500 (detail : String)
deriving DecidableEq

/-- `POST /webhooks` (kixie.py lines 207-333).  Returns the event-log table
after the request, the HTTP response, and the remote side effects
performed.  `payload_json` stands for `json.dumps(body.model_dump())`. -/
def webhooks (tenants : List TenantRow) (db : List EventLogRow)
    (businessid hookevent : String) (data : JVal) (x_goose_secret : String)
    (payload_json : String) (proc : ProcOutcome) :
    List EventLogRow × WebhookResp × List String :=
  match find_tenant tenants businessid with
  | none => (db, .notFound404 "Unknown businessid", [])
  | some tenant =>
    if x_goose_secret ≠ tenant.webhook_secret then
      (db, .unauthorized401 "Invalid signature", [])
    else
      let key := idem_key tenant.id (idemCallid data) hookevent
      if (db.find? (fun e => e.idem_key == key)).isSome then
        (db, .dupOk, [])
      else
        match proc with
        | .success eff =>
          (db ++ [⟨tenant.id, hookevent, storedCallid data, key, payload_json, "ok", none⟩],
           .ok, eff)
        | .failure m eff =>
          (db ++ [⟨tenant.id, hookevent, storedCallid data, key, payload_json, "error", some m⟩],
           .serverError500 m, eff)

/-- Number of event-log rows carrying a given fingerprint. -/
def countKey (db : List EventLogRow) (k : String) : Nat :=
  db.countP (fun e => e.idem_key == k)

/-! ### Webhook signature verification (`app/routes/dialer.py`, lines 33-42) -/

/-- Result of `_verify_kixie_signature`: pass, or an `HTTPException(401)`. -/
inductive VerifyOut where
  | ok
  | unauthorized (detail : String)
deriving DecidableEq

/-- Functional model of `hmac.compare_digest` on hex strings: equality.
(The constant-time execution of the comparison is a timing property with
no observable content in this embedding.) -/
def compare_digest (a b : String) : Bool := a == b

/-- `_verify_kixie_signature(raw, header_sig)` (dialer.py lines 33-42) with
the `KIXIE_WEBHOOK_SECRET` environment value as an argument (`none` =
unset; the empty string is falsy and also skips verification). -/
def verify_kixie_signature (secret : Option String) (raw : List Nat)
    (header_sig : Option String) : VerifyOut :=
  match secret with
  | none => .ok
  | some s =>
    if s = "" then .ok
    else
      match header_sig with
      | none => .unauthorized "Missing signature"
      | some sig =>
        if sig = "" then .unauthorized "Missing signature"
        else if compare_digest (hmacSha256Hex (utf8Bytes s) raw) sig then .ok
        else .unauthorized "Invalid signature"

/-! ### Tiered phone matcher (`realnex_api.py` lines 100-109 and 393-414)

The three remote interactions — the CRM-native `/Contact(s)/search`
(`_try_paths` response), `search_contact_keys_by_phone_two_stage`, and
`search_contact_by_phone_wide` — are oracle responses. -/

/-- `search_by_phone` (realnex_api.py lines 100-109) applied to the
`_try_paths` response: passes a 2xx response through, wraps anything else
into a `crm_search_failed` error dict. -/
def search_by_phone_model (resp : JVal) : JVal :=
  if is2xx (statusOf resp) then resp
  else .obj [("status", jgetD resp "status" (.num 400)), ("error", .str "crm_search_failed"),
             ("raw", resp)]

/-- The candidate key attributes tried by `search_contact_key_by_phone_auto`. -/
def autoKeyNames : List String := ["Key", "key", "Id", "id", "ContactKey", "contactKey"]

/-- `for k in (...): if k in first and first[k]: ...` — the first present,
truthy key attribute of a dict. -/
def findKeyVal : List String → JVal → Option JVal
  | [], _ => none
  | k :: ks, d =>
    match jget d k with
    | some v => if truthy v then some v else findKeyVal ks d
    | none => findKeyVal ks d

/-- The `for container in ("data","value","items")` loop of
`search_contact_key_by_phone_auto` (lines 396-403): a container must be a
non-empty list whose first element is a dict; when the inner key loop finds
nothing, the outer loop continues with the next container. -/
def stdExtractGo (std : JVal) : List String → Option String
  | [] => none
  | c :: cs =>
    match jget std c with
    | some (.arr (first :: _)) =>
      match first with
      | .obj kvs =>
        (match findKeyVal autoKeyNames (.obj kvs) with
         | some v => some (pyStr v)
         | none => stdExtractGo std cs)
      | _ => stdExtractGo std cs
    | _ => stdExtractGo std cs

/-- Tier-1 key extraction from the (possibly wrapped) `search_by_phone`
response. -/
def stdExtract (std : JVal) : Option String := stdExtractGo std ["data", "value", "items"]

/-- Tier 2 of `search_contact_key_by_phone_auto` (lines 404-406): accept the
two-stage result when its status is 2xx and it carries a truthy
`contactKey`. -/
def autoTwoStage (ts : JVal) : Option String :=
  if is2xx (statusOf ts) && (jget ts "contactKey").elim false truthy then
    (jget ts "contactKey").map pyStr
  else none

/-- Tier 3 of `search_contact_key_by_phone_auto` (lines 407-413): take the
first row of `wide.value or wide.data or []` and extract a key attribute.
(A non-dict first row would raise in Python; no key is produced.) -/
def autoWide (wide : JVal) : Option String :=
  match pyOrV (pyOr (jget wide "value") (jget wide "data")) (.arr []) with
  | .arr (first :: _) =>
    (match first with
     | .obj kvs => (findKeyVal autoKeyNames (.obj kvs)).map pyStr
     | _ => none)
  | _ => none

/-- The OData tail of the matcher (tiers 2 then 3, then `not_found`),
paired with the `stage` marker string the function reports. -/
def autoOData (ts wide : JVal) : Option String × String :=
  match autoTwoStage ts with
  | some k => (some k, "odata_two_stage")
  | none =>
    match autoWide wide with
    | some k => (some k, "odata_wide")
    | none => (none, "not_found")

/-- `search_contact_key_by_phone_auto` (lines 393-414) with the three remote
responses as oracles (`stdRaw` is the raw `_try_paths` response that
`search_by_phone` wraps). -/
def search_contact_key_by_phone_auto (stdRaw ts wide : JVal) : Option String × String :=
  match stdExtract (search_by_phone_model stdRaw) with
  | some k => (some k, "crm_search")
  | none => autoOData ts wide

/-! ### `GET /contacts/search` (`app/routes/dialer.py`, lines 100-156) -/

/-- The key attributes tried by the dialer routes (different order from the
matcher's). -/
def csKeyNames : List String := ["contactKey", "ContactKey", "Key", "key", "Id", "id"]

/-- `v = row.get(k); if isinstance(v, str) and v:` — the first present,
non-empty string key attribute. -/
def csFindKeyRow : List String → JVal → Option String
  | [], _ => none
  | k :: ks, row =>
    match jget row k with
    | some (.str s) => if s = "" then csFindKeyRow ks row else some s
    | _ => csFindKeyRow ks row

/-- `data = crm.get("data") or crm.get("value") or crm.get("items") or crm`
followed by the list/dict coercion into `rows`. -/
def csRows (crm : JVal) : List JVal :=
  match pyOrV (pyOr (pyOr (jget crm "data") (jget crm "value")) (jget crm "items")) crm with
  | .arr xs => xs
  | .obj kvs => [.obj kvs]
  | _ => []

/-- The row loop of `contacts_search`: first key found in any dict row. -/
def csFirstKey : List JVal → Option String
  | [] => none
  | r :: rs =>
    match r with
    | .obj kvs =>
      (match csFindKeyRow csKeyNames (.obj kvs) with
       | some s => some s
       | none => csFirstKey rs)
    | _ => csFirstKey rs

/-- The decision shape of the `GET /contacts/search` response (the route
additionally echoes raw responses; those carry no decision content). -/
inductive CSOut where
  | tooShort (normalized : String)
  | crmFound (normalized : String) (key : Option String)
  | odataFound (normalized : String) (key : JVal)
  | noMatch (normalized : String)

/-- `contacts_search(phone)` (dialer.py lines 100-156) with the CRM-native
search response (`crmRaw`, fed through `search_by_phone`) and the two-stage
response (`ts`) as oracles.  The guard rejects any phone whose normalized
form has fewer than 11 digits before either remote tier is consulted. -/
def contacts_search (phone : String) (crmRaw ts : JVal) : CSOut :=
  let normalized := (normalize_phone_e164ish (some phone)).getD ""
  if ((digits_only (some normalized)).getD "").length < 11 then
    .tooShort normalized
  else
    let crm := search_by_phone_model crmRaw
    if is2xx (statusOf crm) then
      .crmFound normalized (csFirstKey (csRows crm))
    else if is2xx (statusOf ts) && (jget ts "contactKey").elim false truthy then
      .odataFound normalized ((jget ts "contactKey").getD .null)
    else
      .noMatch normalized

/-! ### Legacy history-write fallback (`app/routes/kixie.py`, lines 281-314)
and the dialer history writer (`app/routes/dialer.py`, lines 206-241) -/

/-- Key membership in a payload dict. -/
def containsKV (p : List (String × JVal)) (k : String) : Bool :=
  p.any (fun kv => kv.1 == k)

/-- Key lookup in a payload dict. -/
def lookupKV (p : List (String × JVal)) (k : String) : Option JVal :=
  (p.find? (fun kv => kv.1 == k)).map (fun kv => kv.2)

/-- The `common` base payload of the legacy fallback (lines 285-294). -/
def historyCommon (note subject now : String) (et_key : Option String) : List (String × JVal) :=
  [("note", .str note), ("description", .str note), ("subject", .str subject),
   ("title", .str subject), ("date", .str now)] ++
  (match et_key with
   | some k => [("EventTypeKey", .str k), ("eventTypeKey", .str k)]
   | none => [])

/-- The six candidate payload shapes (lines 296-299): for each entity type,
one payload linking the contact under `entityId` and one under `entityKey`. -/
def historyCandidates (common : List (String × JVal)) (cid : String) :
    List (List (String × JVal)) :=
  ["Contact", "crm.contact", "CrmContact"].flatMap (fun et =>
    [common ++ [("entityType", .str et), ("entityId", .str cid)],
     common ++ [("entityType", .str et), ("entityKey", .str cid)]])

/-- The rejection line appended to `errors` for one failed attempt
(line 310). -/
def historyErrorLine (payload : List (String × JVal)) (resp : JVal) : String :=
  (match lookupKV payload "entityType" with | some v => pyStr v | none => "None") ++ "|" ++
  (if containsKV payload "entityId" then "entityId" else "entityKey") ++ " -> " ++
  (match jget resp "error" with | some v => pyStr v | none => "None") ++ " (via " ++
  (match jget resp "attempt" with | some v => pyStr v | none => "") ++ ")"

/-- The `for payload in candidates` loop (lines 301-311): stop at the first
response with `status < 400` (default 500), otherwise record the rejection
and continue.  Returns `(success, errors)`. -/
def historyFallbackGo (post : List (String × JVal) → JVal) :
    List (List (String × JVal)) → List String → Option JVal × List String
  | [], errs => (none, errs)
  | p :: ps, errs =>
    let r2 := post p
    if statusD r2 500 < 400 then (some r2, errs)
    else historyFallbackGo post ps (errs ++ [historyErrorLine p r2])

/-- The legacy fallback writer over the six candidate shapes.  When
`success` is `none` the route raises
`HTTPException(502, "RealNex History rejected all payloads: " + joined errors)`. -/
def create_history_fallback (post : List (String × JVal) → JVal)
    (common : List (String × JVal)) (cid : String) : Option JVal × List String :=
  historyFallbackGo post (historyCandidates common cid) []

/-- The history-related slice of the dialer webhook's response (dialer.py
lines 206-241): a single attempt whose link field comes from
`RN_HISTORY_CONTACT_LINK_FIELD` (default `contactKey`). -/
structure DialerHistOut where
  status : Int
  link_field : String
  contactKey : String
deriving DecidableEq

/-- The dialer webhook's single history write: build the payload with the
configured link field, post once, and report that link field. -/
def dialer_history_write (link_field_env : Option String) (contact_key : String)
    (rn : JVal) : DialerHistOut :=
  let link_field := link_field_env.getD "contactKey"
  ⟨statusD rn 200, link_field, contact_key⟩

/-! ### Lease queue (`app/routes/dailer.py`, lines 236-296; table
`app/models/dialer_queue.py`)

Rows carry the columns `next_contact` reads and writes.  Timestamps are
integers (`datetime` instants); `now` and the caller's `lock_ttl_sec` are
arguments.  A `locked` row with `locked_at IS NULL` is never matched by the
SQL predicate `locked_at < cutoff`. -/

/-- One `dialer_queue` row. -/
structure QueueItem where
  id : Nat
  tenant_id : Nat
  campaign : Option String
  object_key : String
  name_first : Option String
  name_last : Option String
  company : Option String
  email : Option String
  phone_e164 : String
  status : String
  locked_by : Option String
  locked_at : Option Int
  attempts : Nat
  created_at : Int
deriving DecidableEq

/-- The expired-lease predicate of the reclaim query (lines 249-256):
tenant match, `locked`, and `locked_at < now - lock_ttl_sec`.  Note the
query has no campaign filter. -/
def expiredLock (tenant : Nat) (now ttl : Int) (it : QueueItem) : Bool :=
  it.tenant_id == tenant && it.status == "locked" &&
    (match it.locked_at with
     | some t => decide (t < now - ttl)
     | none => false)

/-- The reclaim assignment (lines 257-260): back to `pending`, holder and
lock timestamp cleared. -/
def clearLock (it : QueueItem) : QueueItem :=
  { it with status := "pending", locked_by := none, locked_at := none }

/-- The reclaim pass over the whole table. -/
def releaseExpired (db : List QueueItem) (tenant : Nat) (now ttl : Int) : List QueueItem :=
  db.map (fun it => if expiredLock tenant now ttl it then clearLock it else it)

/-- The selection filter (lines 265-275): tenant, `pending`, and exact
campaign match (`IS NULL` for a null campaign). -/
def pendingMatch (tenant : Nat) (campaign : Option String) (it : QueueItem) : Bool :=
  it.tenant_id == tenant && it.status == "pending" && it.campaign == campaign

/-- `ORDER BY attempts ASC, created_at ASC LIMIT 1` over the filtered rows,
keeping the earliest row of the table on ties. -/
def pickNext (l : List QueueItem) : Option QueueItem :=
  l.foldl
    (fun acc it =>
      match acc with
      | none => some it
      | some cur =>
        if it.attempts < cur.attempts ∨ (it.attempts = cur.attempts ∧ it.created_at < cur.created_at)
        then some it else some cur)
    none

/-- The lock assignment (lines 281-283) applied to the row with the given
primary key. -/
def lockItem (db : List QueueItem) (itemId : Nat) (agent : String) (now : Int) :
    List QueueItem :=
  db.map (fun it =>
    if it.id == itemId then
      { it with status := "locked", locked_by := some agent, locked_at := some now }
    else it)

/-- The `NextOut` response model (lines 227-234). -/
structure NextOut where
  id : Nat
  contact_key : String
  name : String
  company : Option String
  phone : String
  email : Option String
  crm_url : String
deriving DecidableEq

/-- `crm_url_from_key` (line 85-86). -/
def crm_url_from_key (key : String) : String := "https://crm.realnex.com/Contact/" ++ key

/-- Python `str.strip()`: drop whitespace from both ends. -/
def pyStrip (s : String) : String :=
  ⟨((s.data.dropWhile Char.isWhitespace).reverse.dropWhile Char.isWhitespace).reverse⟩

/-- `" ".join([p for p in [first or "", last or ""] if p]).strip() or "Unknown"`. -/
def fullNameOf (it : QueueItem) : String :=
  let s := pyStrip (String.intercalate " "
    (([it.name_first.getD "", it.name_last.getD ""]).filter (fun p => p ≠ "")))
  if s = "" then "Unknown" else s

/-- The `NextOut` built from the leased row. -/
def mkNextOut (it : QueueItem) : NextOut :=
  ⟨it.id, it.object_key, fullNameOf it, it.company, it.phone_e164, it.email,
   crm_url_from_key it.object_key⟩

/-- `GET /next` (`next_contact`, dailer.py lines 236-296) for a resolved
tenant: reclaim expired leases (caller-supplied TTL, campaign-blind), pick
the next pending row of the tenant/campaign, lock it for the agent at
`now`, and return it; `none` models the `HTTPException(404, "No pending
records")` no-work response. -/
def next_contact (db : List QueueItem) (tenant : Nat) (agent : String)
    (campaign : Option String) (lock_ttl_sec now : Int) :
    List QueueItem × Option NextOut :=
  let db1 := releaseExpired db tenant now lock_ttl_sec
  match pickNext (db1.filter (pendingMatch tenant campaign)) with
  | none => (db1, none)
  | some item => (lockItem db1 item.id agent now, some (mkNextOut item))

/-! ## Helper lemmas -/

theorem pyDigitsL_idem (l : List Char) : pyDigitsL (pyDigitsL l) = pyDigitsL l := by
  apply List.filter_eq_self.mpr
  intro a ha
  exact List.of_mem_filter ha

theorem pyDigitsL_cons_plus (l : List Char) : pyDigitsL ('+' :: l) = pyDigitsL l := by
  simp [pyDigitsL]

theorem pyDigitsL_cons_one (l : List Char) : pyDigitsL ('1' :: l) = '1' :: pyDigitsL l := by
  simp [pyDigitsL]

/-- Normalization output is a fixed point of normalization. -/
theorem normalizeL_idem {l t : List Char} (h : normalizeL l = some t) : normalizeL t = some t := by
  have hdd : pyDigitsL (pyDigitsL l) = pyDigitsL l := pyDigitsL_idem l
  unfold normalizeL at h
  split_ifs at h with h1 h2 h3 h4 h5
  · -- 10 digits: t = '+' :: '1' :: ds, renormalizes through the 11-digit branch
    have ht : t = '+' :: '1' :: pyDigitsL l := by
      cases h
      rfl
    subst ht
    have hds : pyDigitsL ('+' :: '1' :: pyDigitsL l) = '1' :: pyDigitsL l := by
      rw [pyDigitsL_cons_plus, pyDigitsL_cons_one, hdd]
    unfold normalizeL
    rw [if_neg (by simp), if_neg (by simp [hds]), if_neg (by simp [hds, h3]),
      if_pos (by simp [hds, h3]), hds]
  · -- 11 digits led by '1': t = '+' :: ds, stays in the same branch
    have ht : t = '+' :: pyDigitsL l := by
      cases h
      rfl
    subst ht
    have hds : pyDigitsL ('+' :: pyDigitsL l) = pyDigitsL l := by
      rw [pyDigitsL_cons_plus, hdd]
    unfold normalizeL
    rw [if_neg (by simp), if_neg (by simp [hds, h2]), if_neg (by simp [hds, h4.2]),
      if_pos (by simp [hds, h4]), hds]
  · -- raw began with '+': t = '+' :: ds
    have ht : t = '+' :: pyDigitsL l := by
      cases h
      rfl
    subst ht
    have hds : pyDigitsL ('+' :: pyDigitsL l) = pyDigitsL l := by
      rw [pyDigitsL_cons_plus, hdd]
    unfold normalizeL
    rw [if_neg (by simp), if_neg (by simp [hds, h2]), if_neg (by simp [hds, h3]),
      if_neg (by simp [hds, h4]), if_pos (by simp), hds]
  · -- default branch: t = '+' :: ds
    have ht : t = '+' :: pyDigitsL l := by
      cases h
      rfl
    subst ht
    have hds : pyDigitsL ('+' :: pyDigitsL l) = pyDigitsL l := by
      rw [pyDigitsL_cons_plus, hdd]
    unfold normalizeL
    rw [if_neg (by simp), if_neg (by simp [hds, h2]), if_neg (by simp [hds, h3]),
      if_neg (by simp [hds, h4]), if_pos (by simp), hds]

/-! ## C6 — phone normalization shape and the worked example -/

/-- C6: normalization strips all non-digit characters; a 10-digit result is
prefixed with the default country code `+1`; an 11-digit result starting
with `1` is kept with a `+` prefix; and on the concrete example,
`normalize_phone_e164ish("(858) 458-1063") = "+18584581063"` and
`digits_only("(858) 458-1063") = "8584581063"`. -/
theorem c6_phone_normalization :
    (∀ s : String,
      ((pyDigitsL s.data).length = 10 →
        normalize_phone_e164ish (some s) = some ⟨'+' :: '1' :: pyDigitsL s.data⟩) ∧
      ((pyDigitsL s.data).head? = some '1' → (pyDigitsL s.data).length = 11 →
        normalize_phone_e164ish (some s) = some ⟨'+' :: pyDigitsL s.data⟩)) ∧
    normalize_phone_e164ish (some "(858) 458-1063") = some "+18584581063" ∧
    digits_only (some "(858) 458-1063") = some "8584581063" := by
  refine ⟨fun s => ⟨fun h10 => ?_, fun hhd h11 => ?_⟩, by decide, by decide⟩
  · have hne : pyDigitsL s.data ≠ [] := by
      intro h
      rw [h] at h10
      simp at h10
    have hsne : s.data ≠ [] := by
      intro h
      apply hne
      rw [pyDigitsL, h, List.filter_nil]
    simp [normalize_phone_e164ish, normalizeL, hsne, hne, h10]
  · have hne : pyDigitsL s.data ≠ [] := by
      intro h
      rw [h] at h11
      simp at h11
    have hsne : s.data ≠ [] := by
      intro h
      apply hne
      rw [pyDigitsL, h, List.filter_nil]
    have hn10 : (pyDigitsL s.data).length ≠ 10 := by omega
    simp [normalize_phone_e164ish, normalizeL, hsne, hne, hn10, hhd, h11]

/-- C6 witness: the example phone takes the 10-digit branch. -/
theorem c6_phone_normalization_witness :
    (pyDigitsL ("(858) 458-1063".data)).length = 10 ∧
    normalize_phone_e164ish (some "(858) 458-1063") =
      some ⟨'+' :: '1' :: pyDigitsL ("(858) 458-1063".data)⟩ :=
  ⟨by decide, (c6_phone_normalization.1 "(858) 458-1063").1 (by decide)⟩

/-! ## C7 — idempotence of normalization -/

/-- C7: for every phone string whose normalized form contains at least 7
digits, normalization is idempotent (it is in fact idempotent whenever it
returns a value at all). -/
theorem c7_normalize_idempotent :
    ∀ s t : String, normalize_phone_e164ish (some s) = some t →
      7 ≤ (pyDigitsL t.data).length →
      normalize_phone_e164ish (some t) = some t := by
  intro s t h _
  simp only [normalize_phone_e164ish] at h ⊢
  cases hn : normalizeL s.data with
  | none => rw [hn] at h; simp at h
  | some u =>
    rw [hn] at h
    simp only [Option.map_some'] at h
    have ht : t = ⟨u⟩ := (Option.some.inj h).symm
    subst ht
    have : normalizeL u = some u := normalizeL_idem hn
    simp [this]

/-- C7 witness at the example phone. -/
theorem c7_normalize_idempotent_witness :
    normalize_phone_e164ish (some "(858) 458-1063") = some "+18584581063" ∧
    7 ≤ (pyDigitsL ("+18584581063".data)).length ∧
    normalize_phone_e164ish (some "+18584581063") = some "+18584581063" :=
  ⟨by decide, by decide,
    c7_normalize_idempotent "(858) 458-1063" "+18584581063" (by decide) (by decide)⟩

/-! ## C8 — short phones are rejected before any search tier -/

theorem digits_only_getD_length_le (n : String) :
    ((digits_only (some n)).getD "").length ≤ (pyDigitsL n.data).length := by
  simp only [digits_only]
  split_ifs with h1 h2
  · simp [String.length]
  · simp [String.length]
  · simp [String.length]

/-- C8: a phone whose normalized form has fewer than 7 digits is rejected
by `contacts_search` with the `phone_too_short` error (the route's guard in
fact requires 11 digits), and no search tier is consulted: the result does
not depend on either remote oracle. -/
theorem c8_short_phone_rejected :
    ∀ (phone : String) (crm1 ts1 crm2 ts2 : JVal),
      (pyDigitsL ((normalize_phone_e164ish (some phone)).getD "").data).length < 7 →
      contacts_search phone crm1 ts1 =
        .tooShort ((normalize_phone_e164ish (some phone)).getD "") ∧
      contacts_search phone crm1 ts1 = contacts_search phone crm2 ts2 := by
  intro phone crm1 ts1 crm2 ts2 h7
  have hguard :
      ((digits_only (some ((normalize_phone_e164ish (some phone)).getD ""))).getD "").length
        < 11 := by
    have := digits_only_getD_length_le ((normalize_phone_e164ish (some phone)).getD "")
    omega
  constructor
  · simp only [contacts_search]
    rw [if_pos hguard]
  · simp only [contacts_search]
    rw [if_pos hguard, if_pos hguard]

/-- C8 witness: a 5-digit phone is rejected regardless of the oracles. -/
theorem c8_short_phone_rejected_witness :
    (pyDigitsL ((normalize_phone_e164ish (some "12345")).getD "").data).length < 7 ∧
    contacts_search "12345" .null .null = .tooShort "+12345" ∧
    contacts_search "12345" .null .null = contacts_search "12345" (.num 0) (.num 0) := by
  have h := c8_short_phone_rejected "12345" .null .null (.num 0) (.num 0) (by decide)
  refine ⟨by decide, ?_, h.2⟩
  have hn : (normalize_phone_e164ish (some "12345")).getD "" = "+12345" := by decide
  rw [← hn]
  exact h.1

/-! ## C2 — the endpoint prober -/

theorem probeGo_inner (send : String → SendOutcome) (b : String) (rest : List String) :
    ∀ (paths : List String) (last : Option String),
      probeGo send (paths.map (mkUrl b) ++ rest) last =
        (match tryPathsInner send b paths last with
         | Sum.inl out => out
         | Sum.inr last2 => probeGo send rest last2) := by
  intro paths
  induction paths with
  | nil => intro last; simp [tryPathsInner]
  | cons p ps ih =>
    intro last
    simp only [List.map_cons, List.cons_append, probeGo, tryPathsInner]
    cases hsend : send (mkUrl b p) with
    | err m => simp
    | resp s =>
      by_cases h404 : s = 404
      · subst h404
        simpa using ih (some (mkUrl b p))
      · simp [h404]

theorem try_paths_eq_probeGo (send : String → SendOutcome) (paths : List String) :
    ∀ (bases : List String) (last : Option String),
      tryPathsOuter send bases paths last = probeGo send (urlsOf bases paths) last := by
  intro bases
  induction bases with
  | nil => intro last; simp [tryPathsOuter, urlsOf, probeGo]
  | cons b bs ih =>
    intro last
    have hurls : urlsOf (b :: bs) paths = paths.map (mkUrl b) ++ urlsOf bs paths := by
      simp [urlsOf]
    rw [hurls, probeGo_inner]
    simp only [tryPathsOuter]
    cases h : tryPathsInner send b paths last with
    | inl out => rfl
    | inr last2 => exact ih last2

theorem probeGo_first_resp (send : String → SendOutcome) :
    ∀ (us₁ : List String) (u : String) (us₂ : List String) (s : Nat) (last : Option String),
      (∀ v ∈ us₁, send v = .resp 404) → send u = .resp s → s ≠ 404 →
      probeGo send (us₁ ++ u :: us₂) last = .found u s := by
  intro us₁
  induction us₁ with
  | nil =>
    intro u us₂ s last _ hu hs
    simp [probeGo, hu, hs]
  | cons v vs ih =>
    intro u us₂ s last h404 hu hs
    have hv : send v = .resp 404 := h404 v (by simp)
    simp only [List.cons_append, probeGo, hv]
    simpa using ih u us₂ s (some v) (fun w hw => h404 w (by simp [hw])) hu hs

theorem probeGo_first_err (send : String → SendOutcome) :
    ∀ (us₁ : List String) (u : String) (us₂ : List String) (m : String) (last : Option String),
      (∀ v ∈ us₁, send v = .resp 404) → send u = .err m →
      probeGo send (us₁ ++ u :: us₂) last = .transport u m := by
  intro us₁
  induction us₁ with
  | nil =>
    intro u us₂ m last _ hu
    simp [probeGo, hu]
  | cons v vs ih =>
    intro u us₂ m last h404 hu
    have hv : send v = .resp 404 := h404 v (by simp)
    simp only [List.cons_append, probeGo, hv]
    simpa using ih u us₂ m (some v) (fun w hw => h404 w (by simp [hw])) hu

theorem probeGo_notFound_all404 (send : String → SendOutcome) :
    ∀ (us : List String) (last : Option String) (l : Option String),
      probeGo send us last = .notFound l → ∀ u ∈ us, send u = .resp 404 := by
  intro us
  induction us with
  | nil =>
    intro last l _ u hu
    simp at hu
  | cons v vs ih =>
    intro last l h u hu
    simp only [probeGo] at h
    cases hsend : send v with
    | err m =>
      rw [hsend] at h
      simp at h
    | resp s =>
      rw [hsend] at h
      by_cases h404 : s = 404
      · subst h404
        simp only [show ((404 : Nat) ≠ 404) = False by simp, if_false, ite_false] at h
        rcases List.mem_cons.mp hu with rfl | hmem
        · exact hsend
        · exact ih (some v) l (by simpa using h) u hmem
      · simp [h404] at h

theorem probeGo_all404_notFound (send : String → SendOutcome) :
    ∀ (us : List String) (last : Option String),
      (∀ u ∈ us, send u = .resp 404) →
      ∃ l, probeGo send us last = .notFound l := by
  intro us
  induction us with
  | nil =>
    intro last _
    exact ⟨last, rfl⟩
  | cons v vs ih =>
    intro last h404
    have hv : send v = .resp 404 := h404 v (by simp)
    simp only [probeGo, hv]
    simpa using ih (some v) (fun w hw => h404 w (by simp [hw]))

/-- C2: `_try_paths` iterates the `(base, path)` pairs bases-outer /
paths-inner (the flat order `urlsOf`) and returns the first response whose
status is not 404; it aborts with the 599-shaped transport result on the
first transport failure without consulting any later candidate (the result
is fixed by any transport agreeing on the attempts made so far); and it
returns a not-found result exactly when every candidate answered 404. -/
theorem c2_try_paths_probe (bases paths : List String) (send : String → SendOutcome) :
    (∀ (us₁ : List String) (u : String) (us₂ : List String) (s : Nat),
      urlsOf bases paths = us₁ ++ u :: us₂ →
      (∀ v ∈ us₁, send v = .resp 404) → send u = .resp s → s ≠ 404 →
      try_paths bases paths send = .found u s) ∧
    (∀ (us₁ : List String) (u : String) (us₂ : List String) (m : String),
      urlsOf bases paths = us₁ ++ u :: us₂ →
      (∀ v ∈ us₁, send v = .resp 404) → send u = .err m →
      try_paths bases paths send = .transport u m ∧
        ∀ send' : String → SendOutcome,
          (∀ v ∈ us₁, send' v = send v) → send' u = send u →
          try_paths bases paths send' = .transport u m) ∧
    (∀ l, try_paths bases paths send = .notFound l →
      ∀ u ∈ urlsOf bases paths, send u = .resp 404) ∧
    ((∀ u ∈ urlsOf bases paths, send u = .resp 404) →
      ∃ l, try_paths bases paths send = .notFound l) := by
  refine ⟨?_, ?_, ?_, ?_⟩
  · intro us₁ u us₂ s hsplit h404 hu hs
    rw [try_paths, try_paths_eq_probeGo, hsplit]
    exact probeGo_first_resp send us₁ u us₂ s none h404 hu hs
  · intro us₁ u us₂ m hsplit h404 hu
    constructor
    · rw [try_paths, try_paths_eq_probeGo, hsplit]
      exact probeGo_first_err send us₁ u us₂ m none h404 hu
    · intro send' hagree hagreeu
      rw [try_paths, try_paths_eq_probeGo, hsplit]
      exact probeGo_first_err send' us₁ u us₂ m none
        (fun v hv => (hagree v hv).trans (h404 v hv)) (hagreeu.trans hu)
  · intro l h u hu
    rw [try_paths, try_paths_eq_probeGo] at h
    exact probeGo_notFound_all404 send (urlsOf bases paths) none l h u hu
  · intro h404
    rw [try_paths, try_paths_eq_probeGo]
    exact probeGo_all404_notFound send (urlsOf bases paths) none h404

/-- C2 witness: with one base and two paths where the first answers 404 and
the second 200, the prober returns the second response; and a transport
error on the first attempt aborts with the 599-shaped result. -/
theorem c2_try_paths_probe_witness :
    urlsOf ["b"] ["p", "q"] = ["b/p"] ++ "b/q" :: [] ∧
    try_paths ["b"] ["p", "q"]
      (fun u => if u = "b/p" then .resp 404 else .resp 200) = .found "b/q" 200 ∧
    try_paths ["b"] ["p", "q"]
      (fun u => if u = "b/p" then .err "reset" else .resp 200) = .transport "b/p" "reset" := by
  refine ⟨by decide, ?_, ?_⟩
  · exact (c2_try_paths_probe ["b"] ["p", "q"] _).1 ["b/p"] "b/q" [] 200
      (by decide) (by decide) (by decide) (by decide)
  · exact (((c2_try_paths_probe ["b"] ["p", "q"] _).2.1 [] "b/p" ["b/q"] "reset"
      (by decide) (by simp) (by decide)).1)

/-! ## C4 — a failed tier 1 never yields not-found by itself -/

theorem autoOData_none_iff (ts wide : JVal) :
    (autoOData ts wide).1 = none ↔ autoTwoStage ts = none ∧ autoWide wide = none := by
  unfold autoOData
  cases h1 : autoTwoStage ts with
  | some k => simp [h1]
  | none =>
    cases h2 : autoWide wide with
    | some k => simp [h2]
    | none => simp

/-- C4: when the CRM-native contact search returns a non-2xx status, the
matcher's result is exactly the result of the OData tail (two-stage probe,
then wide filter/scan): tier 1 contributes nothing, and a not-found outcome
arises exactly when both OData tiers are exhausted. -/
theorem c4_tier1_failure_falls_through :
    ∀ stdRaw ts wide : JVal, is2xx (statusOf stdRaw) = false →
      search_contact_key_by_phone_auto stdRaw ts wide = autoOData ts wide ∧
      ((search_contact_key_by_phone_auto stdRaw ts wide).1 = none ↔
        autoTwoStage ts = none ∧ autoWide wide = none) := by
  intro stdRaw ts wide h
  have hwrap : search_by_phone_model stdRaw =
      .obj [("status", jgetD stdRaw "status" (.num 400)), ("error", .str "crm_search_failed"),
            ("raw", stdRaw)] := by
    simp [search_by_phone_model, h]
  have hext : stdExtract (search_by_phone_model stdRaw) = none := by
    rw [hwrap]
    rfl
  have hmain : search_contact_key_by_phone_auto stdRaw ts wide = autoOData ts wide := by
    unfold search_contact_key_by_phone_auto
    rw [hext]
  exact ⟨hmain, hmain ▸ autoOData_none_iff ts wide⟩

/-- C4 witness: a 404 from tier 1 with empty OData responses ends in
`not_found` through the OData tail. -/
theorem c4_tier1_failure_falls_through_witness :
    is2xx (statusOf (.obj [("status", JVal.num 404)])) = false ∧
    search_contact_key_by_phone_auto (.obj [("status", JVal.num 404)]) .null .null =
      autoOData .null .null ∧
    autoOData (JVal.null) (JVal.null) = (none, "not_found") :=
  ⟨by decide,
   (c4_tier1_failure_falls_through (.obj [("status", JVal.num 404)]) .null .null (by decide)).1,
   rfl⟩

/-! ## C5 — the history-write fallback loop -/

theorem historyFallbackGo_all_rejected (post : List (String × JVal) → JVal) :
    ∀ (cs : List (List (String × JVal))) (errs : List String),
      (∀ p ∈ cs, ¬ statusD (post p) 500 < 400) →
      historyFallbackGo post cs errs =
        (none, errs ++ cs.map (fun p => historyErrorLine p (post p))) := by
  intro cs
  induction cs with
  | nil => intro errs _; simp [historyFallbackGo]
  | cons c cs' ih =>
    intro errs hrej
    have hc : ¬ statusD (post c) 500 < 400 := hrej c (by simp)
    simp only [historyFallbackGo, if_neg hc]
    rw [ih (errs ++ [historyErrorLine c (post c)]) (fun p hp => hrej p (by simp [hp]))]
    simp

theorem historyFallbackGo_first_success (post : List (String × JVal) → JVal) :
    ∀ (c₁ : List (List (String × JVal))) (c : List (String × JVal))
      (c₂ : List (List (String × JVal))) (errs : List String),
      (∀ p ∈ c₁, ¬ statusD (post p) 500 < 400) → statusD (post c) 500 < 400 →
      historyFallbackGo post (c₁ ++ c :: c₂) errs =
        (some (post c), errs ++ c₁.map (fun p => historyErrorLine p (post p))) := by
  intro c₁
  induction c₁ with
  | nil =>
    intro c c₂ errs _ hok
    simp [historyFallbackGo, hok]
  | cons p ps ih =>
    intro c c₂ errs hrej hok
    have hp : ¬ statusD (post p) 500 < 400 := hrej p (by simp)
    simp only [List.cons_append, historyFallbackGo, if_neg hp]
    rw [List.append_eq,
      ih c c₂ (errs ++ [historyErrorLine p (post p)]) (fun q hq => hrej q (by simp [hq])) hok]
    simp

/-- C5 (as amended): the legacy fallback history writer tries the six
candidate payload shapes (entity types `Contact`, `crm.contact`,
`CrmContact`, each linking the contact under `entityId` then `entityKey`)
in that fixed order; it stops at the first response the CRM accepts, with
an error trail enumerating exactly the earlier rejected attempts and their
reasons; when every candidate is rejected it fails with no success value
and a trail enumerating all six attempts (the route then raises
`HTTPException(502, ...)` joining that trail).  The accepted shape is not
reported in the route's success response, and the dialer-path writer makes
a single attempt whose link field comes from configuration (default
`contactKey`), which it reports. -/
theorem c5_history_fallback_trail :
    ∀ (post : List (String × JVal) → JVal) (common : List (String × JVal)) (cid : String),
      (∀ (c₁ : List (List (String × JVal))) (c : List (String × JVal))
        (c₂ : List (List (String × JVal))),
        historyCandidates common cid = c₁ ++ c :: c₂ →
        (∀ p ∈ c₁, ¬ statusD (post p) 500 < 400) → statusD (post c) 500 < 400 →
        create_history_fallback post common cid =
          (some (post c), c₁.map (fun p => historyErrorLine p (post p)))) ∧
      ((∀ p ∈ historyCandidates common cid, ¬ statusD (post p) 500 < 400) →
        create_history_fallback post common cid =
          (none, (historyCandidates common cid).map (fun p => historyErrorLine p (post p))) ∧
        (historyCandidates common cid).length = 6) ∧
      (∀ (env : Option String) (ck : String) (rn : JVal),
        (dialer_history_write env ck rn).link_field = env.getD "contactKey") := by
  intro post common cid
  refine ⟨?_, ?_, fun env ck rn => rfl⟩
  · intro c₁ c c₂ hsplit hrej hok
    rw [create_history_fallback, hsplit,
      historyFallbackGo_first_success post c₁ c c₂ [] hrej hok]
    simp
  · intro hrej
    refine ⟨?_, by simp [historyCandidates]⟩
    rw [create_history_fallback,
      historyFallbackGo_all_rejected post (historyCandidates common cid) [] hrej]
    simp

/-- C5 counterexample to the claim as stated: with the first two candidate
shapes rejected and the third accepted, the writer's attempt trail has
length 2 (the rejected attempts only), not 3, the success value is the raw
CRM response with no record of which link field worked, and no candidate
payload carries the claimed `leadKey`/`partyKey` fields at all. -/
theorem c5_history_fallback_counterexample :
    (create_history_fallback
        (fun p =>
          if containsKV p "entityId" &&
              (match lookupKV p "entityType" with
               | some (.str s) => s == "crm.contact"
               | _ => false) then
            .obj [("status", .num 200)]
          else .obj [("status", .num 502), ("error", .str "rejected")])
        (historyCommon "note" "subject" "now" none) "cid123").2.length = 2 ∧
    (create_history_fallback
        (fun p =>
          if containsKV p "entityId" &&
              (match lookupKV p "entityType" with
               | some (.str s) => s == "crm.contact"
               | _ => false) then
            .obj [("status", .num 200)]
          else .obj [("status", .num 502), ("error", .str "rejected")])
        (historyCommon "note" "subject" "now" none) "cid123").1.isSome = true ∧
    ((historyCandidates (historyCommon "note" "subject" "now" none) "cid123").all
      (fun p => !(containsKV p "leadKey" || containsKV p "partyKey"))) = true := by
  refine ⟨by decide, by decide, by decide⟩

/-- C5 witness for the amended theorem: the all-rejected branch enumerates
all six attempts. -/
theorem c5_history_fallback_trail_witness :
    (∀ p ∈ historyCandidates (historyCommon "n" "s" "d" none) "k",
      ¬ statusD ((fun _ => JVal.obj [("status", JVal.num 502)]) p) 500 < 400) ∧
    create_history_fallback (fun _ => JVal.obj [("status", JVal.num 502)])
        (historyCommon "n" "s" "d" none) "k" =
      (none, (historyCandidates (historyCommon "n" "s" "d" none) "k").map
        (fun p => historyErrorLine p ((fun _ => JVal.obj [("status", JVal.num 502)]) p))) ∧
    (historyCandidates (historyCommon "n" "s" "d" none) "k").length = 6 := by
  have h := ((c5_history_fallback_trail (fun _ => JVal.obj [("status", JVal.num 502)])
    (historyCommon "n" "s" "d" none) "k").2.1 (by decide))
  exact ⟨by decide, h.1, h.2⟩

/-! ## C1 — at-most-once processing of inbound events -/

theorem find?_append_left_none {α : Type} (p : α → Bool) (l1 l2 : List α)
    (h : l1.find? p = none) : (l1 ++ l2).find? p = l2.find? p := by
  induction l1 with
  | nil => simp
  | cons a as ih =>
    rw [List.find?_cons] at h
    cases hp : p a
    · rw [hp] at h
      simp only [cond_false] at h
      rw [List.cons_append, List.find?_cons, hp]
      simpa using ih h
    · rw [hp] at h
      simp at h

theorem countP_eq_zero_of_find?_none {α : Type} (p : α → Bool) (l : List α)
    (h : l.find? p = none) : l.countP p = 0 := by
  rw [List.countP_eq_zero]
  intro a ha
  exact List.find?_eq_none.mp h a ha

/-- C1: delivering the same `(tenant id, external call id, event kind)`
twice leaves exactly one event-log row under the deterministic SHA-256
fingerprint; the second delivery answers the success-shaped duplicate
response, changes no state, performs no remote side effect, and its result
is independent of the processing oracle (it short-circuits before any
contact lookup or history write). -/
theorem c1_duplicate_delivery_once :
    ∀ (tenants : List TenantRow) (db : List EventLogRow) (businessid hookevent : String)
      (data data2 : JVal) (payload payload2 : String) (t : TenantRow)
      (proc1 proc2 : ProcOutcome) (db1 : List EventLogRow) (resp1 : WebhookResp)
      (eff1 : List String),
      find_tenant tenants businessid = some t →
      idemCallid data2 = idemCallid data →
      (db.find? (fun e => e.idem_key == idem_key t.id (idemCallid data) hookevent)) = none →
      webhooks tenants db businessid hookevent data t.webhook_secret payload proc1 =
        (db1, resp1, eff1) →
      webhooks tenants db1 businessid hookevent data2 t.webhook_secret payload2 proc2 =
        (db1, .dupOk, []) ∧
      countKey db1 (idem_key t.id (idemCallid data) hookevent) = 1 ∧
      (∀ (payload3 : String) (proc3 : ProcOutcome),
        webhooks tenants db1 businessid hookevent data2 t.webhook_secret payload3 proc3 =
          (db1, .dupOk, [])) := by
  intro tenants db businessid hookevent data data2 payload payload2 t proc1 proc2 db1 resp1
    eff1 hfind hcall hnone h1
  have hsecret : ¬ t.webhook_secret ≠ t.webhook_secret := by simp
  -- the first delivery appends one row carrying the fingerprint
  have hkey1 : ∃ st er,
      db1 = db ++ [⟨t.id, hookevent, storedCallid data,
        idem_key t.id (idemCallid data) hookevent, payload, st, er⟩] := by
    unfold webhooks at h1
    rw [hfind] at h1
    simp only [hsecret, ite_false, if_neg hsecret, hnone, Option.isSome_none,
      Bool.false_eq_true, if_false, ite_false] at h1
    cases proc1 with
    | success eff =>
      simp only at h1
      exact ⟨"ok", none, by rw [← (Prod.mk.injEq _ _ _ _).mp h1 |>.1]⟩
    | failure m eff =>
      simp only at h1
      exact ⟨"error", some m, by rw [← (Prod.mk.injEq _ _ _ _).mp h1 |>.1]⟩
  obtain ⟨st, er, hdb1⟩ := hkey1
  -- the appended row is found by the duplicate check of the second delivery
  have hfound : (db1.find?
      (fun e => e.idem_key == idem_key t.id (idemCallid data2) hookevent)).isSome = true := by
    rw [hdb1, hcall, find?_append_left_none _ _ _ hnone]
    simp [List.find?_cons]
  rw [hcall] at hfound
  have hdup : ∀ (payload3 : String) (proc3 : ProcOutcome),
      webhooks tenants db1 businessid hookevent data2 t.webhook_secret payload3 proc3 =
        (db1, .dupOk, []) := by
    intro payload3 proc3
    unfold webhooks
    rw [hfind]
    simp only [hsecret, ite_false, if_neg hsecret, hcall, hfound, if_true, ite_true]
  refine ⟨hdup payload2 proc2, ?_, hdup⟩
  rw [hdb1, countKey, List.countP_append,
    countP_eq_zero_of_find?_none _ _ hnone]
  simp [List.countP_cons]

/-- C1 witness: a concrete `endcall` event delivered twice — the first
delivery logs one row, the second answers the duplicate response against
the unchanged table. -/
theorem c1_duplicate_delivery_once_witness :
    find_tenant [⟨1, "biz", "sec", "jwt", true⟩] "biz" = some ⟨1, "biz", "sec", "jwt", true⟩ ∧
    webhooks [⟨1, "biz", "sec", "jwt", true⟩]
        [⟨1, "endcall", some "abc123", idem_key 1 (some "abc123") "endcall", "payload", "ok",
          none⟩]
        "biz" "endcall" (.obj [("callid", .str "abc123")]) "sec" "payload2"
        (.success ["history_write"]) =
      ([⟨1, "endcall", some "abc123", idem_key 1 (some "abc123") "endcall", "payload", "ok",
          none⟩], .dupOk, []) ∧
    countKey [⟨1, "endcall", some "abc123", idem_key 1 (some "abc123") "endcall", "payload",
        "ok", none⟩]
      (idem_key 1 (some "abc123") "endcall") = 1 := by
  have h := c1_duplicate_delivery_once [⟨1, "biz", "sec", "jwt", true⟩] []
    "biz" "endcall" (.obj [("callid", .str "abc123")]) (.obj [("callid", .str "abc123")])
    "payload" "payload2" ⟨1, "biz", "sec", "jwt", true⟩
    (.success ["history_write"]) (.success ["history_write"])
    [⟨1, "endcall", some "abc123", idem_key 1 (some "abc123") "endcall", "payload", "ok", none⟩]
    .ok ["history_write"]
    (by rfl) rfl (by rfl) (by rfl)
  exact ⟨by rfl, h.1, h.2.1⟩

/-! ## C9 — webhook signature verification -/

theorem hexW32_length (w : Nat) : (hexW32 w).length = 8 := rfl

theorem sha256Hex_length (msg : List Nat) : (sha256Hex msg).length = 64 := by
  simp [sha256Hex, String.length_append, hexW32_length]

theorem hmacSha256Hex_length (key msg : List Nat) : (hmacSha256Hex key msg).length = 64 := by
  simp [hmacSha256Hex, sha256Hex_length]

/-- C9 counterexample to the claim as stated: the `POST /webhooks` endpoint
(kixie.py) accepts a delivery whose `X-Goose-Secret` header simply equals
the tenant's stored secret and proceeds to processing, although that header
is not the HMAC-SHA256 of the request body under the shared secret (every
HMAC hex digest has 64 characters; the accepted header has 6).  The check
is plain string equality of the header against the secret, not an HMAC
over the raw body. -/
theorem c9_signature_counterexample :
    (webhooks [⟨1, "biz", "s3cr3t", "jwt", true⟩] [] "biz" "endcall" (.obj [])
        "s3cr3t" "payload-bytes" (.success ["contact_lookup", "history_write"])).2.1 =
      .ok ∧
    (webhooks [⟨1, "biz", "s3cr3t", "jwt", true⟩] [] "biz" "endcall" (.obj [])
        "s3cr3t" "payload-bytes" (.success ["contact_lookup", "history_write"])).2.2 =
      ["contact_lookup", "history_write"] ∧
    hmacSha256Hex (utf8Bytes "s3cr3t") (utf8Bytes "payload-bytes") ≠ "s3cr3t" := by
  refine ⟨rfl, rfl, fun h => ?_⟩
  have h64 := hmacSha256Hex_length (utf8Bytes "s3cr3t") (utf8Bytes "payload-bytes")
  rw [h] at h64
  exact absurd h64 (by decide)

/-- C9 (as amended): the dialer webhook (`_verify_kixie_signature`) does
verify HMAC-SHA256 over the raw body whenever the `KIXIE_WEBHOOK_SECRET`
environment secret is set — a missing signature is rejected with 401, a
present signature passes exactly when it equals the HMAC hex digest
(compared with `hmac.compare_digest`), and verification is skipped when no
secret is configured.  The kixie webhook instead rejects with 401 exactly
when the `X-Goose-Secret` header differs from the tenant's stored secret,
by direct string equality, independent of the request body. -/
theorem c9_signature_verification :
    (∀ (s : String) (raw : List Nat), s ≠ "" →
      verify_kixie_signature (some s) raw none = .unauthorized "Missing signature") ∧
    (∀ (s sig : String) (raw : List Nat), s ≠ "" → sig ≠ "" →
      (verify_kixie_signature (some s) raw (some sig) = .ok ↔
        sig = hmacSha256Hex (utf8Bytes s) raw)) ∧
    (∀ (raw : List Nat) (hdr : Option String), verify_kixie_signature none raw hdr = .ok) ∧
    (∀ (tenants : List TenantRow) (db : List EventLogRow)
      (businessid hookevent : String) (data : JVal) (secret payload : String)
      (proc : ProcOutcome) (t : TenantRow),
      find_tenant tenants businessid = some t →
      ((webhooks tenants db businessid hookevent data secret payload proc).2.1 =
        .unauthorized401 "Invalid signature" ↔ secret ≠ t.webhook_secret)) := by
  refine ⟨?_, ?_, fun raw hdr => rfl, ?_⟩
  · intro s raw hs
    simp [verify_kixie_signature, hs]
  · intro s sig raw hs hsig
    simp only [verify_kixie_signature, if_neg hs, if_neg hsig, compare_digest, beq_iff_eq]
    constructor
    · intro h
      by_contra hne
      have : ¬ hmacSha256Hex (utf8Bytes s) raw = sig := fun he => hne he.symm
      rw [if_neg this] at h
      exact absurd h (by simp)
    · intro h
      rw [if_pos h.symm]
  · intro tenants db businessid hookevent data secret payload proc t hfind
    unfold webhooks
    rw [hfind]
    by_cases hsec : secret ≠ t.webhook_secret
    · simp [hsec]
    · by_cases hdup : ((db.find? (fun e =>
          e.idem_key == idem_key t.id (idemCallid data) hookevent)).isSome = true)
      · simp [hdup, hsec]
      · cases proc with
        | success eff => simp [hsec, hdup]
        | failure m eff => simp [hsec, hdup]

/-- C9 witness for the amended theorem at concrete inputs. -/
theorem c9_signature_verification_witness :
    verify_kixie_signature (some "k") [1, 2] none = .unauthorized "Missing signature" ∧
    verify_kixie_signature none [1, 2] (some "x") = .ok ∧
    (verify_kixie_signature (some "k") [1, 2] (some "x") = .ok ↔
      "x" = hmacSha256Hex (utf8Bytes "k") [1, 2]) ∧
    ((webhooks [⟨1, "biz", "sec", "jwt", true⟩] [] "biz" "ev" (.obj []) "wrong" "p"
        (.success [])).2.1 = .unauthorized401 "Invalid signature" ↔
      ("wrong" : String) ≠ "sec") :=
  ⟨c9_signature_verification.1 "k" [1, 2] (by decide),
   c9_signature_verification.2.2.1 [1, 2] (some "x"),
   c9_signature_verification.2.1 "k" "x" [1, 2] (by decide) (by decide),
   c9_signature_verification.2.2.2 [⟨1, "biz", "sec", "jwt", true⟩] [] "biz" "ev" (.obj [])
     "wrong" "p" (.success []) ⟨1, "biz", "sec", "jwt", true⟩ (by rfl)⟩

/-! ## C3 and C10 — the lease queue -/

theorem pickNext_go :
    ∀ (l : List QueueItem) (a : QueueItem),
      ∃ x, List.foldl
          (fun acc it =>
            match acc with
            | none => some it
            | some cur =>
              if it.attempts < cur.attempts ∨
                  (it.attempts = cur.attempts ∧ it.created_at < cur.created_at)
              then some it else some cur)
          (some a) l = some x ∧
        (x = a ∨ x ∈ l) ∧
        (x.attempts < a.attempts ∨ (x.attempts = a.attempts ∧ x.created_at ≤ a.created_at)) ∧
        ∀ y ∈ l, x.attempts < y.attempts ∨
          (x.attempts = y.attempts ∧ x.created_at ≤ y.created_at) := by
  intro l
  induction l with
  | nil =>
    intro a
    exact ⟨a, rfl, Or.inl rfl, by omega, by simp⟩
  | cons it l ih =>
    intro a
    by_cases hlt : it.attempts < a.attempts ∨
        (it.attempts = a.attempts ∧ it.created_at < a.created_at)
    · obtain ⟨x, hx, hmem, hle, hall⟩ := ih it
      refine ⟨x, ?_, ?_, by omega, ?_⟩
      · simp only [List.foldl_cons]
        rw [if_pos hlt]
        exact hx
      · rcases hmem with rfl | hm
        · exact Or.inr (List.mem_cons_self _ _)
        · exact Or.inr (List.mem_cons_of_mem _ hm)
      · intro y hy
        rcases List.mem_cons.mp hy with rfl | hm
        · exact hle
        · exact hall y hm
    · obtain ⟨x, hx, hmem, hle, hall⟩ := ih a
      refine ⟨x, ?_, ?_, hle, ?_⟩
      · simp only [List.foldl_cons]
        rw [if_neg hlt]
        exact hx
      · rcases hmem with rfl | hm
        · exact Or.inl rfl
        · exact Or.inr (List.mem_cons_of_mem _ hm)
      · intro y hy
        rcases List.mem_cons.mp hy with rfl | hm
        · omega
        · exact hall y hm

theorem pickNext_mem_min (l : List QueueItem) (x : QueueItem) (h : pickNext l = some x) :
    x ∈ l ∧ ∀ y ∈ l, x.attempts < y.attempts ∨
      (x.attempts = y.attempts ∧ x.created_at ≤ y.created_at) := by
  cases l with
  | nil => simp [pickNext] at h
  | cons a l =>
    obtain ⟨z, hz, hmem, hle, hall⟩ := pickNext_go l a
    have hred : pickNext (a :: l) = List.foldl
        (fun acc it =>
          match acc with
          | none => some it
          | some cur =>
            if it.attempts < cur.attempts ∨
                (it.attempts = cur.attempts ∧ it.created_at < cur.created_at)
            then some it else some cur)
        (some a) l := rfl
    rw [hred, hz] at h
    cases h
    constructor
    · rcases hmem with rfl | hm
      · exact List.mem_cons_self _ _
      · exact List.mem_cons_of_mem _ hm
    · intro y hy
      rcases List.mem_cons.mp hy with rfl | hm
      · exact hle
      · exact hall y hm

theorem pickNext_none_nil (l : List QueueItem) (h : pickNext l = none) : l = [] := by
  cases l with
  | nil => rfl
  | cons a l =>
    obtain ⟨z, hz, _, _, _⟩ := pickNext_go l a
    have hred : pickNext (a :: l) = List.foldl
        (fun acc it =>
          match acc with
          | none => some it
          | some cur =>
            if it.attempts < cur.attempts ∨
                (it.attempts = cur.attempts ∧ it.created_at < cur.created_at)
            then some it else some cur)
        (some a) l := rfl
    rw [hred, hz] at h
    cases h

/-- C3: one `lease_next` call first returns every expired lock of the
tenant to `pending` with holder and lock timestamp cleared; then, among the
pending rows of the given tenant and campaign (in the reclaimed state), it
locks one with minimal attempt count and then minimal creation time for
the calling agent at the current instant and returns it; when no pending
row qualifies it answers the 404 no-work response and the table is exactly
the reclaimed one — no state change beyond the mandated lease
reclamation. -/
theorem c3_lease_next :
    ∀ (db : List QueueItem) (tenant : Nat) (agent : String) (campaign : Option String)
      (ttl now : Int),
      (∀ it ∈ db, expiredLock tenant now ttl it = true →
        clearLock it ∈ releaseExpired db tenant now ttl) ∧
      (∀ it ∈ db, expiredLock tenant now ttl it = false →
        it ∈ releaseExpired db tenant now ttl) ∧
      ((next_contact db tenant agent campaign ttl now).2 = none →
        (next_contact db tenant agent campaign ttl now).1 = releaseExpired db tenant now ttl ∧
        ∀ it ∈ releaseExpired db tenant now ttl, pendingMatch tenant campaign it = false) ∧
      (∀ res, (next_contact db tenant agent campaign ttl now).2 = some res →
        ∃ item ∈ releaseExpired db tenant now ttl,
          pendingMatch tenant campaign item = true ∧
          (∀ j ∈ releaseExpired db tenant now ttl, pendingMatch tenant campaign j = true →
            item.attempts < j.attempts ∨
              (item.attempts = j.attempts ∧ item.created_at ≤ j.created_at)) ∧
          (next_contact db tenant agent campaign ttl now).1 =
            lockItem (releaseExpired db tenant now ttl) item.id agent now ∧
          res = mkNextOut item ∧
          { item with status := "locked", locked_by := some agent, locked_at := some now } ∈
            (next_contact db tenant agent campaign ttl now).1) := by
  intro db tenant agent campaign ttl now
  refine ⟨?_, ?_, ?_, ?_⟩
  · intro it hit hexp
    have h := List.mem_map_of_mem
      (fun r => if expiredLock tenant now ttl r then clearLock r else r) hit
    simp only [hexp, if_true, ite_true] at h
    exact h
  · intro it hit hexp
    have h := List.mem_map_of_mem
      (fun r => if expiredLock tenant now ttl r then clearLock r else r) hit
    simp only [hexp, Bool.false_eq_true, if_false, ite_false] at h
    exact h
  · intro hnone
    cases hpick : pickNext
        ((releaseExpired db tenant now ttl).filter (pendingMatch tenant campaign)) with
    | some item =>
      have : (next_contact db tenant agent campaign ttl now).2 = some (mkNextOut item) := by
        simp [next_contact, hpick]
      rw [hnone] at this
      cases this
    | none =>
      have hfil := pickNext_none_nil _ hpick
      constructor
      · simp [next_contact, hpick]
      · intro it hit
        by_contra hcontra
        have hmem : it ∈ (releaseExpired db tenant now ttl).filter
            (pendingMatch tenant campaign) :=
          List.mem_filter.mpr ⟨hit, by simpa using hcontra⟩
        rw [hfil] at hmem
        cases hmem
  · intro res hres
    cases hpick : pickNext
        ((releaseExpired db tenant now ttl).filter (pendingMatch tenant campaign)) with
    | none =>
      have : (next_contact db tenant agent campaign ttl now).2 = none := by
        simp [next_contact, hpick]
      rw [hres] at this
      cases this
    | some item =>
      obtain ⟨hmem, hmin⟩ := pickNext_mem_min _ _ hpick
      have hitem : item ∈ releaseExpired db tenant now ttl := (List.mem_filter.mp hmem).1
      have hpend : pendingMatch tenant campaign item = true := (List.mem_filter.mp hmem).2
      have hnc : next_contact db tenant agent campaign ttl now =
          (lockItem (releaseExpired db tenant now ttl) item.id agent now,
           some (mkNextOut item)) := by
        simp [next_contact, hpick]
      have hres2 : res = mkNextOut item := by
        rw [hnc] at hres
        exact (Option.some.inj hres).symm
      refine ⟨item, hitem, hpend, ?_, by rw [hnc], hres2, ?_⟩
      · intro j hj hpj
        exact hmin j (List.mem_filter.mpr ⟨hj, hpj⟩)
      · rw [hnc]
        have h := List.mem_map_of_mem
          (fun it => if it.id == item.id then
            { it with status := "locked", locked_by := some agent, locked_at := some now }
           else it) hitem
        simp only [beq_self_eq_true, if_true, ite_true] at h
        exact h

/-- C3 witness: a lone pending row is leased and locked for the agent. -/
theorem c3_lease_next_witness :
    (next_contact [⟨1, 7, none, "key1", none, none, none, none, "+15550000000", "pending",
        none, none, 0, 5⟩] 7 "alice" none 60 100).2 =
      some (mkNextOut ⟨1, 7, none, "key1", none, none, none, none, "+15550000000", "pending",
        none, none, 0, 5⟩) ∧
    ∃ item ∈ releaseExpired [⟨1, 7, none, "key1", none, none, none, none, "+15550000000",
        "pending", none, none, 0, 5⟩] 7 100 60,
      pendingMatch 7 none item = true ∧
      (∀ j ∈ releaseExpired [⟨1, 7, none, "key1", none, none, none, none, "+15550000000",
          "pending", none, none, 0, 5⟩] 7 100 60, pendingMatch 7 none j = true →
        item.attempts < j.attempts ∨
          (item.attempts = j.attempts ∧ item.created_at ≤ j.created_at)) ∧
      (next_contact [⟨1, 7, none, "key1", none, none, none, none, "+15550000000", "pending",
          none, none, 0, 5⟩] 7 "alice" none 60 100).1 =
        lockItem (releaseExpired [⟨1, 7, none, "key1", none, none, none, none, "+15550000000",
          "pending", none, none, 0, 5⟩] 7 100 60) item.id "alice" 100 ∧
      mkNextOut ⟨1, 7, none, "key1", none, none, none, none, "+15550000000", "pending",
        none, none, 0, 5⟩ = mkNextOut item ∧
      { item with status := "locked", locked_by := some "alice", locked_at := some 100 } ∈
        (next_contact [⟨1, 7, none, "key1", none, none, none, none, "+15550000000", "pending",
          none, none, 0, 5⟩] 7 "alice" none 60 100).1 := by
  have h := (c3_lease_next [⟨1, 7, none, "key1", none, none, none, none, "+15550000000",
    "pending", none, none, 0, 5⟩] 7 "alice" none 60 100).2.2.2
    (mkNextOut ⟨1, 7, none, "key1", none, none, none, none, "+15550000000", "pending",
      none, none, 0, 5⟩) (by decide)
  exact ⟨by decide, h⟩

/-- C10: the reclaim pass of `next_contact` judges lease expiry against the
TTL supplied by the current caller and covers every locked row of the
tenant regardless of campaign: a locked row whose lock timestamp is older
than `now - lock_ttl_sec` and whose campaign differs from the one being
leased from ends the call `pending` with holder and timestamp cleared
(primary keys are unique, as in the table's schema). -/
theorem c10_reclaim_ignores_campaign :
    ∀ (db : List QueueItem) (tenant : Nat) (agent : String) (campaign : Option String)
      (ttl now : Int) (it : QueueItem) (ts : Int),
      (db.map (fun r => r.id)).Nodup →
      it ∈ db → it.tenant_id = tenant → it.status = "locked" →
      it.locked_at = some ts → ts < now - ttl → it.campaign ≠ campaign →
      clearLock it ∈ releaseExpired db tenant now ttl ∧
      clearLock it ∈ (next_contact db tenant agent campaign ttl now).1 := by
  intro db tenant agent campaign ttl now it ts hids hit htid hst hla hts hcamp
  have hexp : expiredLock tenant now ttl it = true := by
    simp [expiredLock, htid, hst, hla, hts]
  have hclear : clearLock it ∈ releaseExpired db tenant now ttl := by
    have h := List.mem_map_of_mem
      (fun r => if expiredLock tenant now ttl r then clearLock r else r) hit
    simp only [hexp, if_true, ite_true] at h
    exact h
  refine ⟨hclear, ?_⟩
  cases hpick : pickNext
      ((releaseExpired db tenant now ttl).filter (pendingMatch tenant campaign)) with
  | none =>
    have : (next_contact db tenant agent campaign ttl now).1 =
        releaseExpired db tenant now ttl := by
      simp [next_contact, hpick]
    rw [this]
    exact hclear
  | some item =>
    obtain ⟨hmem, _⟩ := pickNext_mem_min _ _ hpick
    have hitem : item ∈ releaseExpired db tenant now ttl := (List.mem_filter.mp hmem).1
    have hpend : pendingMatch tenant campaign item = true := (List.mem_filter.mp hmem).2
    have hfid : ∀ r : QueueItem,
        ((if expiredLock tenant now ttl r then clearLock r else r) : QueueItem).id = r.id := by
      intro r
      by_cases h : expiredLock tenant now ttl r = true
      · simp [h, clearLock]
      · simp [h]
    have hne : (clearLock it).id ≠ item.id := by
      intro hid
      obtain ⟨orig, horig, heq⟩ := List.mem_map.mp hitem
      have heq2 : (if expiredLock tenant now ttl orig then clearLock orig else orig) = item :=
        heq
      have horigid : orig.id = it.id := by
        have h1 : item.id = orig.id := by rw [← heq2]; exact hfid orig
        have h2 : (clearLock it).id = it.id := rfl
        rw [h2] at hid
        omega
      have horigeq : orig = it :=
        List.inj_on_of_nodup_map hids horig hit (by simpa using horigid)
      rw [horigeq, if_pos hexp] at heq2
      have hcc : item.campaign = it.campaign := by rw [← heq2]; rfl
      have hpc : item.campaign = campaign := by
        have h2 := hpend
        simp only [pendingMatch, Bool.and_eq_true, beq_iff_eq] at h2
        exact h2.2
      rw [hcc] at hpc
      exact hcamp hpc
    have hnc : (next_contact db tenant agent campaign ttl now).1 =
        lockItem (releaseExpired db tenant now ttl) item.id agent now := by
      simp [next_contact, hpick]
    rw [hnc]
    have hb : ((clearLock it).id == item.id) = false := by simpa using hne
    have h := List.mem_map_of_mem
      (fun r => if r.id == item.id then
        { r with status := "locked", locked_by := some agent, locked_at := some now }
       else r) hclear
    simp only [hb, Bool.false_eq_true, if_false, ite_false] at h
    exact h

/-- C10 witness: an expired lock in campaign `B` is reclaimed by a lease
call against campaign `A` of the same tenant. -/
theorem c10_reclaim_ignores_campaign_witness :
    clearLock ⟨1, 7, some "B", "k1", none, none, none, none, "+15550000001", "locked",
        some "bob", some 0, 0, 0⟩ ∈
      releaseExpired [⟨1, 7, some "B", "k1", none, none, none, none, "+15550000001", "locked",
        some "bob", some 0, 0, 0⟩,
        ⟨2, 7, some "A", "k2", none, none, none, none, "+15550000002", "pending",
        none, none, 0, 1⟩] 7 100 10 ∧
    clearLock ⟨1, 7, some "B", "k1", none, none, none, none, "+15550000001", "locked",
        some "bob", some 0, 0, 0⟩ ∈
      (next_contact [⟨1, 7, some "B", "k1", none, none, none, none, "+15550000001", "locked",
        some "bob", some 0, 0, 0⟩,
        ⟨2, 7, some "A", "k2", none, none, none, none, "+15550000002", "pending",
        none, none, 0, 1⟩] 7 "alice" (some "A") 10 100).1 :=
  c10_reclaim_ignores_campaign
    [⟨1, 7, some "B", "k1", none, none, none, none, "+15550000001", "locked",
      some "bob", some 0, 0, 0⟩,
     ⟨2, 7, some "A", "k2", none, none, none, none, "+15550000002", "pending",
      none, none, 0, 1⟩]
    7 "alice" (some "A") 10 100
    ⟨1, 7, some "B", "k1", none, none, none, none, "+15550000001", "locked",
      some "bob", some 0, 0, 0⟩ 0
    (by decide) (by decide) rfl rfl rfl (by decide) (by decide)

end GooseKixie
